import Mathlib

/-!
Verification of the interactive browsing session layer
(`src/plugins/browse/index.ts` and `src/plugins/browse/pinchtab-backend.ts`,
the latter containing both the pinchtab and the playwright backend).

The development is a shallow embedding: each TypeScript function the claims
depend on is translated into an executable Lean definition over explicit
state.  JavaScript strings are modelled as Lean `String`s (character-based
rather than UTF-16-code-unit-based, which is irrelevant for the inputs
considered here), `Map`s as association lists in insertion order, promises
as sequential steps, and the external world (the pinchtab HTTP service, the
playwright page) as explicit oracle parameters.
-/

set_option autoImplicit false

namespace Browse

/-! ## JavaScript primitives used by the source

The corresponding core `String` functions (`toLower`, `splitOn`, `trim`,
`startsWith`, `toNat?`) are implemented on `Substring`s and do not reduce in
the kernel, so the same operations are defined here over the character list
of the string.  They are character-based where JavaScript is UTF-16-code-unit
based, which coincides on every input considered in this file. -/

def digitsToNat (cs : List Char) : Nat :=
  cs.foldl (fun acc c => acc * 10 + (c.toNat - '0'.toNat)) 0

/-- Model of JavaScript `Number(s)` restricted to the strings that arise from
splitting a hostname on `'.'`: the empty string converts to `0`, a pure digit
string to its value, anything else (in particular an alphabetic label) to
`NaN`, modelled as `none`.  (Signs, fractions, exponents and hex forms of
`Number` cannot occur in a URL hostname label and are therefore mapped to
`none` as well; such labels are not numeric dotted-quad octets either way.) -/
def jsNum? (s : String) : Option Int :=
  match s.data with
  | [] => some 0
  | cs => if cs.all Char.isDigit then some (digitsToNat cs) else none

/-- Model of the digit-prefix part of `parseInt(s, 10)`: the maximal digit
prefix, `NaN` (no digits) being `none`. -/
def parseDigits (cs : List Char) : Option Nat :=
  let ds := cs.takeWhile Char.isDigit
  if ds.isEmpty then none
  else some (digitsToNat ds)

/-- JavaScript whitespace characters relevant to `parseInt`, `trim` and `\s`. -/
def isJsWs (c : Char) : Bool :=
  c == ' ' || c == '\t' || c == '\n' || c == '\r' || c == '\x0b' || c == '\x0c'

/-- Model of JavaScript `s.toLowerCase()` (ASCII letters suffice here). -/
def jsToLower (s : String) : String := String.mk (s.data.map Char.toLower)

/-- Model of JavaScript `s.trim()`. -/
def jsTrim (s : String) : String :=
  String.mk (((s.data.dropWhile isJsWs).reverse.dropWhile isJsWs).reverse)

/-- Model of JavaScript `s.startsWith(pre)`. -/
def jsStartsWith (s pre : String) : Bool := pre.data.isPrefixOf s.data

/-- Model of JavaScript `s.split(sep)` for a one-character separator:
`"".split(sep)` is `[""]`, separators at the ends produce empty fields. -/
def splitOnChar (sep : Char) : List Char → List String
  | [] => [""]
  | c :: rest =>
    let r := splitOnChar sep rest
    if c == sep then "" :: r
    else
      match r with
      | s :: tail => String.mk (c :: s.data) :: tail
      | [] => [String.mk [c]]

def jsParseInt (s : String) : Option Int :=
  match s.data.dropWhile isJsWs with
  | '-' :: rest => (parseDigits rest).map (fun n => -(n : Int))
  | '+' :: rest => (parseDigits rest).map (fun n => (n : Int))
  | rest => (parseDigits rest).map (fun n => (n : Int))

/-- Model of JavaScript `s.slice(0, n)` (character-based). -/
def jsSlice (s : String) (n : Nat) : String := String.mk (s.data.take n)

/-! ## URL parsing model

`isUrlSafe` in `index.ts` begins with `new URL(rawUrl)` and only uses the
`protocol` and `hostname` of the result.  `ParsedUrl` is that projection, and
`parseUrl` models the WHATWG URL constructor restricted to it: extract the
scheme before the first `:`, for the special schemes `http`/`https` skip the
slashes, read the hostname up to a delimiter, require it nonempty and require
a digits-only port when a port is present; a failing parse (the constructor
throwing) is `none`.  Userinfo, percent-encoding and punycode normalisation
are outside the model; no input considered in this file uses them. -/

structure ParsedUrl where
  protocol : String
  hostname : String
deriving DecidableEq

def schemeOkChars : List Char → Bool
  | [] => false
  | c :: rest =>
    c.isAlpha && rest.all (fun d => d.isAlpha || d.isDigit || d == '+' || d == '-' || d == '.')

def hostDelim (c : Char) : Bool := c == '/' || c == ':' || c == '?' || c == '#'

def parseUrlChars (cs : List Char) : Option ParsedUrl :=
  let scheme := cs.takeWhile (fun c => c != ':')
  match cs.dropWhile (fun c => c != ':') with
  | ':' :: afterColon =>
    if schemeOkChars scheme then
      let protocol := String.mk (scheme.map Char.toLower) ++ ":"
      if protocol = "http:" ∨ protocol = "https:" then
        let afterSlashes := afterColon.dropWhile (fun c => c == '/')
        let host := afterSlashes.takeWhile (fun c => !(hostDelim c))
        let afterHost := afterSlashes.dropWhile (fun c => !(hostDelim c))
        if host.isEmpty then none
        else
          match afterHost with
          | ':' :: afterPortColon =>
            let port := afterPortColon.takeWhile (fun c => !(c == '/' || c == '?' || c == '#'))
            if port.all Char.isDigit then some ⟨protocol, String.mk (host.map Char.toLower)⟩
            else none
          | _ => some ⟨protocol, String.mk (host.map Char.toLower)⟩
      else
        match afterColon with
        | '/' :: '/' :: afterSlashes2 =>
          let host := afterSlashes2.takeWhile (fun c => !(hostDelim c))
          some ⟨protocol, String.mk (host.map Char.toLower)⟩
        | _ => some ⟨protocol, ""⟩
    else none
  | _ => none

def parseUrl (raw : String) : Option ParsedUrl := parseUrlChars raw.data

/-! ## The Navigation Guard (`isUrlSafe`, index.ts lines 15-36) -/

/-- The body of `isUrlSafe` after `new URL` succeeded (index.ts lines 18-32):
reject non-`http(s)` protocols, the literal loopback hostnames, the cloud
metadata address, and dotted quads in the private ranges. -/
def isUrlSafeOf (protocol hostname0 : String) : Bool :=
  if protocol = "http:" ∨ protocol = "https:" then
    let hostname := jsToLower hostname0
    if hostname = "localhost" ∨ hostname = "127.0.0.1" ∨ hostname = "::1" then false
    else if hostname = "169.254.169.254" then false
    else
      match (splitOnChar '.' hostname.data).map jsNum? with
      | [some a, some b, some _c, some _d] =>
        if a = 10 then false
        else if a = 172 ∧ 16 ≤ b ∧ b ≤ 31 then false
        else if a = 192 ∧ b = 168 then false
        else if a = 0 then false
        else true
      | _ => true
  else false

/-- `isUrlSafe` (index.ts lines 15-36): parse the raw URL, returning `false`
when the constructor throws, otherwise apply the protocol and hostname
checks. -/
def isUrlSafe (rawUrl : String) : Bool :=
  match parseUrl rawUrl with
  | some u => isUrlSafeOf u.protocol u.hostname
  | none => false

/-! ## The `PageInfo` result shape (browser-backend contract) -/

structure PageLink where
  label : String
  url : String
deriving DecidableEq

structure PageInput where
  ref : String
  itype : String
  placeholder : String
deriving DecidableEq

structure PageInfo where
  url : String
  title : String
  text : String
  links : List PageLink
  inputs : List PageInput
deriving DecidableEq

/-- `MAX_TEXT_LENGTH` (pinchtab-backend.ts line 3, playwright backend). -/
def MAX_TEXT_LENGTH : Nat := 2000

/-! ## Pinchtab backend: snapshot parsing (pinchtab-backend.ts lines 41-63)

`parseLinksFromSnapshot` repeatedly applies the regular expression
`/\[([^\]]*)\]\((https?:\/\/[^)]+)\)/g` to the snapshot text.  The scanner
below is the direct operational reading of that global regex: at each
position try to match the pattern (the character classes are negated single
characters, so greedy matching has no backtracking), emit the captures and
continue after the match, otherwise advance one character.  The `fuel`
argument (instantiated with the input length, an upper bound on the number of
scanning steps since every step consumes at least one character) makes the
recursion structural so that the kernel can evaluate it. -/

/-- Match `https?:\/\/`; returns the matched scheme text and the rest. -/
def matchScheme : List Char → Option (List Char × List Char)
  | 'h' :: 't' :: 't' :: 'p' :: rest =>
    match rest with
    | 's' :: ':' :: '/' :: '/' :: rest2 => some ("https://".data, rest2)
    | ':' :: '/' :: '/' :: rest2 => some ("http://".data, rest2)
    | _ => none
  | _ => none

/-- Try to match `\[([^\]]*)\]\((https?:\/\/[^)]+)\)` at the head of the
input; on success return the link (with the `label || url` defaulting of the
source) and the remaining input. -/
def tryMatchLink (l : List Char) : Option (PageLink × List Char) :=
  match l with
  | '[' :: rest =>
    let label := rest.takeWhile (fun c => c != ']')
    match rest.dropWhile (fun c => c != ']') with
    | ']' :: '(' :: rest2 =>
      match matchScheme rest2 with
      | some (scheme, rest3) =>
        let body := rest3.takeWhile (fun c => c != ')')
        match rest3.dropWhile (fun c => c != ')') with
        | ')' :: remaining =>
          if body.isEmpty then none
          else
            let url := String.mk (scheme ++ body)
            some (⟨if label.isEmpty then url else String.mk label, url⟩, remaining)
        | _ => none
      | none => none
    | _ => none
  | _ => none

def scanLinksAux : Nat → List Char → List PageLink
  | 0, _ => []
  | _ + 1, [] => []
  | fuel + 1, c :: rest =>
    match tryMatchLink (c :: rest) with
    | some (link, remaining) => link :: scanLinksAux fuel remaining
    | none => scanLinksAux fuel rest

def parseLinksFromSnapshot (content : String) : List PageLink :=
  scanLinksAux content.data.length content.data

/-! `parseInputsFromSnapshot` applies
`/\[ref=(\d+)\]\s*(?:input|textarea)\s*(?:type="([^"]*)")?\s*(?:placeholder="([^"]*)")?/gi`
in the same global fashion; the two attribute groups are optional and the
whole regex is case-insensitive. -/

/-- Case-insensitively drop the literal `lit` (given lowercase) from `cs`. -/
def dropLitCI : List Char → List Char → Option (List Char)
  | [], cs => some cs
  | _ :: _, [] => none
  | l :: ls, c :: cs => if c.toLower == l then dropLitCI ls cs else none

/-- Try `lit"([^"]*)"` (e.g. `type="..."`): the literal, a capture of
non-quote characters, and the closing quote. -/
def tryQuotedAttr (lit : List Char) (cs : List Char) : Option (List Char × List Char) :=
  match dropLitCI lit cs with
  | none => none
  | some r =>
    let v := r.takeWhile (fun c => c != '"')
    match r.dropWhile (fun c => c != '"') with
    | '"' :: rest => some (v, rest)
    | _ => none

def tryMatchInput (l : List Char) : Option (PageInput × List Char) :=
  match dropLitCI "[ref=".data l with
  | none => none
  | some r1 =>
    let digits := r1.takeWhile Char.isDigit
    if digits.isEmpty then none
    else
      match r1.dropWhile Char.isDigit with
      | ']' :: r2 =>
        let r3 := r2.dropWhile isJsWs
        match (dropLitCI "input".data r3).orElse (fun _ => dropLitCI "textarea".data r3) with
        | none => none
        | some r4 =>
          let r5 := r4.dropWhile isJsWs
          let (ty, r6) :=
            match tryQuotedAttr "type=\"".data r5 with
            | some (v, rest) => (String.mk v, rest)
            | none => ("", r5)
          let r7 := r6.dropWhile isJsWs
          let (ph, r8) :=
            match tryQuotedAttr "placeholder=\"".data r7 with
            | some (v, rest) => (String.mk v, rest)
            | none => ("", r7)
          some (⟨String.mk digits, if ty = "" then "text" else ty, ph⟩, r8)
      | _ => none

def scanInputsAux : Nat → List Char → List PageInput
  | 0, _ => []
  | _ + 1, [] => []
  | fuel + 1, c :: rest =>
    match tryMatchInput (c :: rest) with
    | some (pin, remaining) => pin :: scanInputsAux fuel remaining
    | none => scanInputsAux fuel rest

def parseInputsFromSnapshot (content : String) : List PageInput :=
  scanInputsAux content.data.length content.data

/-! ## Pinchtab backend: `getPageInfo` and the per-instance operations
(pinchtab-backend.ts lines 65-139)

The external pinchtab service is the environment: `PinchtabResponse` carries
the `/text` body and, when the `/snapshot` request succeeds, the `content`
fields of the returned snapshot items (`none` models the snapshot call
failing, which the source catches and replaces by the empty list). -/

structure PinchtabResponse where
  text : String
  snapshot : Option (List String)
deriving DecidableEq

def getPageInfo (currentUrl : String) (resp : PinchtabResponse) : PageInfo :=
  let snapshotContent := String.intercalate "\n" (resp.snapshot.getD [])
  let firstLine := jsTrim (String.mk (resp.text.data.takeWhile (fun c => c != '\n')))
  { url := currentUrl
  , title := if firstLine = "" then currentUrl else firstLine
  , text := jsSlice resp.text MAX_TEXT_LENGTH
  , links := parseLinksFromSnapshot snapshotContent
  , inputs := parseInputsFromSnapshot snapshotContent }

/-- `navigate` pushes the (successfully navigated) URL onto `urlHistory`. -/
def pinchtabNavHist (hist : List String) (url : String) : List String := hist ++ [url]

/-- `back` pops `urlHistory` only when more than one entry is present. -/
def pinchtabBackHist (hist : List String) : List String :=
  if 1 < hist.length then hist.dropLast else hist

/-- `urlHistory[urlHistory.length - 1] || ''`. -/
def pinchtabCurrentUrl (hist : List String) : String := hist.getLastD ""

/-- The pinchtab `back()` (lines 125-133): issue the navigate-back call
(failing when the transport fails), pop the history if it has more than one
entry, and rebuild the page info at the resulting current URL. -/
def pinchtabBack (hist : List String) (serverOk : Bool) (resp : PinchtabResponse) :
    Except String (List String × PageInfo) :=
  if serverOk then
    let hist' := pinchtabBackHist hist
    .ok (hist', getPageInfo (pinchtabCurrentUrl hist') resp)
  else .error "Pinchtab /navigate failed: 500"

/-! ## Playwright backend (second half of pinchtab-backend.ts)

The live document is the environment: `Anchor` models an `a[href]` element,
`FormControl` an `input`/`textarea`/`select` element, `PageModel` the page
(`page.url()`, `page.title()`, `document.body.innerText` and the two element
lists). -/

structure Anchor where
  textContent : String
  href : String
deriving DecidableEq

structure FormControl where
  tagName : String
  ctype : String
  placeholder : String
  cname : String
deriving DecidableEq

structure PageModel where
  url : String
  title : String
  bodyText : String
  anchors : List Anchor
  controls : List FormControl
deriving DecidableEq

/-- The link extraction of `extractPageInfo` (lines 169-178): map anchors to
`{label, url}` with the label trimmed and truncated to 100 characters, keep
those with a nonempty label and an `http` URL, and truncate to 30. -/
def extractLinks (anchors : List Anchor) : List PageLink :=
  ((anchors.map (fun a => PageLink.mk (jsSlice (jsTrim a.textContent) 100) a.href)).filter
    (fun l => l.label != "" && jsStartsWith l.url "http")).take 30

/-- The input extraction of `extractPageInfo` (lines 180-194): index every
form control, defaulting the type to the lowercased tag name and the
placeholder to the `name` attribute, truncated to 20. -/
def extractInputs (controls : List FormControl) : List PageInput :=
  (controls.enum.map (fun p =>
    PageInput.mk (toString p.1)
      (if p.2.ctype = "" then jsToLower p.2.tagName else p.2.ctype)
      (if p.2.placeholder = "" then p.2.cname else p.2.placeholder))).take 20

/-- `extractPageInfo` (lines 159-203). -/
def extractPageInfoP (p : PageModel) : PageInfo :=
  { url := p.url
  , title := if p.title = "" then p.url else p.title
  , text := jsSlice p.bodyText MAX_TEXT_LENGTH
  , links := extractLinks p.anchors
  , inputs := extractInputs p.controls }

/-- The anchor filter used inside the playwright `click` (lines 231-237),
applied to the live anchors at click time. -/
def clickFiltered (anchors : List Anchor) : List Anchor :=
  anchors.filter (fun a => jsTrim a.textContent != "" && jsStartsWith a.href "http")

/-- The playwright `click(ref)` (lines 225-243): reject a `ref` that does not
parse to a nonnegative integer; otherwise activate the anchor at that index
of the filtered list when it exists and do nothing when it does not.  The
result records which anchor (if any) was activated; re-extraction of the page
afterwards never fails. -/
def playwrightClick (anchors : List Anchor) (ref : String) : Except String (Option Anchor) :=
  match jsParseInt ref with
  | none => .error "ref 必須是非負整數"
  | some i =>
    if i < 0 then .error "ref 必須是非負整數"
    else .ok (clickFiltered anchors)[i.toNat]?

/-- The playwright `back()` (lines 277-282): `goBack` with every failure
swallowed by `.catch(() => {})`, then re-extract.  `goBackDest` is the page
the browser ends on when `goBack` succeeds; `none` models a failed or
history-less `goBack`, which leaves the current page in place. -/
def playwrightBack (p : PageModel) (goBackDest : Option PageModel) : Except String PageInfo :=
  .ok (extractPageInfoP (goBackDest.getD p))

def isErr {ε α : Type} : Except ε α → Bool
  | .error _ => true
  | .ok _ => false

deriving instance DecidableEq for Except

/-! ## Session pool and page cache (index.ts lines 38-93, 466-489)

`sessions` and `pageCache` are `Map`s keyed by chat id; they are modelled as
association lists in insertion order (the iteration order of a JavaScript
`Map`).  A backend instance is identified by the number it received from a
construction counter; for a pinchtab instance the entry also carries the
`urlHistory` closure state of `createPinchtabBackend` (unused by a playwright
instance, whose page state lives in the environment).  Timers are modelled by
trace events: arming, cancelling and the backend `cleanup()` calls appear in
the event trace a step emits, as do the probe, construction, and the
`navigate`/`click`/`back` calls on backend instances. -/

inductive BackendKind where
  | pinchtab
  | playwright
deriving DecidableEq

inductive Ev where
  | probe (result : BackendKind)
  | construct (kind : BackendKind) (backendId : Nat)
  | armTimer (chatId : Nat)
  | clearTimer (chatId : Nat)
  | cleanupCall (backendId : Nat)
  | navigateCall (backendId : Nat) (url : String)
  | clickCall (backendId : Nat) (ref : String)
  | backCall (backendId : Nat)
deriving DecidableEq

structure SessionEntry where
  backendId : Nat
  kind : BackendKind
  hist : List String
  lastUsed : Nat
  timer : Nat
deriving DecidableEq

structure PoolState where
  sessions : List (Nat × SessionEntry)
  pageCache : List (Nat × PageInfo)
  detection : Option BackendKind
  nextId : Nat
deriving DecidableEq

def initState : PoolState := ⟨[], [], none, 0⟩

/-- `MAX_SESSIONS` (index.ts line 11). -/
def MAX_SESSIONS : Nat := 5

/-- `Map.delete`. -/
def eraseA {α : Type} (l : List (Nat × α)) (k : Nat) : List (Nat × α) :=
  l.filter (fun p => p.1 ≠ k)

/-- `Map.set`: replace in place when the key is present, append otherwise. -/
def setA {α : Type} (l : List (Nat × α)) (k : Nat) (v : α) : List (Nat × α) :=
  if (List.lookup k l).isSome then l.map (fun p => if p.1 = k then (k, v) else p)
  else l ++ [(k, v)]

/-- `evictSession` (index.ts lines 60-67): a missing entry is a no-op;
otherwise cancel the idle timer, call the backend's `cleanup()` — whose
failure is swallowed by `.catch(() => {})`, hence the `cleanupFails` oracle
is ignored — and delete both the session entry and the page-cache entry. -/
def evictSession (_cleanupFails : Bool) (st : PoolState) (chatId : Nat) :
    PoolState × List Ev :=
  match List.lookup chatId st.sessions with
  | none => (st, [])
  | some e =>
    ({ st with sessions := eraseA st.sessions chatId
             , pageCache := eraseA st.pageCache chatId },
     [Ev.clearTimer chatId, Ev.cleanupCall e.backendId])

/-- `detectBackend` (index.ts lines 49-58): the probe runs only when no
memoized decision (`detectionPromise`) exists; its result is the environment
parameter `probeResult`. -/
def detectBackend (st : PoolState) (probeResult : BackendKind) :
    PoolState × BackendKind × List Ev :=
  match st.detection with
  | some k => (st, k, [])
  | none => ({ st with detection := some probeResult }, probeResult, [Ev.probe probeResult])

/-- `[...sessions.entries()].sort((a, b) => a.lastUsed - b.lastUsed)[0]`:
the first entry, in insertion order, whose `lastUsed` is minimal (JavaScript
`sort` is stable). -/
def oldestEntry : List (Nat × SessionEntry) → Option (Nat × SessionEntry)
  | [] => none
  | p :: rest =>
    match oldestEntry rest with
    | none => some p
    | some q => if q.2.lastUsed < p.2.lastUsed then some q else some p

/-- The capacity check of `getSession` (index.ts lines 78-83): when the pool
is full, evict the entry with the smallest `lastUsed` (first in insertion
order among ties, matching the stable sort of the source). -/
def maybeEvictOldest (cleanupFails : Bool) (st : PoolState) : PoolState × List Ev :=
  if MAX_SESSIONS ≤ st.sessions.length then
    match oldestEntry st.sessions with
    | some (k, _) => evictSession cleanupFails st k
    | none => (st, [])
  else (st, [])

/-- `getSession` (index.ts lines 69-93): refresh an existing entry; else
evict the oldest entry when at capacity, resolve the backend kind, construct
a fresh backend and register a new entry with an armed idle timer.  Returns
the id of the backend handed back to the caller. -/
def getSession (cleanupFails : Bool) (st : PoolState) (chatId now : Nat)
    (probeResult : BackendKind) : PoolState × Nat × List Ev :=
  match List.lookup chatId st.sessions with
  | some e =>
    ({ st with sessions :=
         st.sessions.map (fun p => if p.1 = chatId then (chatId, { e with lastUsed := now, timer := now }) else p) },
     e.backendId,
     [Ev.clearTimer chatId, Ev.armTimer chatId])
  | none =>
    let evicted := maybeEvictOldest cleanupFails st
    let detected := detectBackend evicted.1 probeResult
    let bid := detected.1.nextId
    let entry : SessionEntry :=
      { backendId := bid, kind := detected.2.1, hist := [], lastUsed := now, timer := now }
    ({ detected.1 with sessions := detected.1.sessions ++ [(chatId, entry)], nextId := bid + 1 },
     bid,
     evicted.2 ++ detected.2.2 ++ [Ev.construct detected.2.1 bid, Ev.armTimer chatId])

/-- The plugin-wide `cleanup` (index.ts lines 477-488): release every
backend, cancel every timer, clear both maps and reset the memoized backend
detection. -/
def pluginCleanup (st : PoolState) : PoolState × List Ev :=
  ({ sessions := [], pageCache := [], detection := none, nextId := st.nextId },
   st.sessions.map (fun p => Ev.cleanupCall p.2.backendId)
     ++ st.sessions.map (fun p => Ev.clearTimer p.1))

/-- Fold a sequence of `(chatId, now)` accesses through `getSession`,
accumulating the emitted events. -/
def runPool (calls : List (Nat × Nat)) (probeResult : BackendKind) : PoolState × List Ev :=
  calls.foldl (fun acc c =>
    let s := getSession false acc.1 c.1 c.2 probeResult
    (s.1, acc.2 ++ s.2.2)) (initState, [])

/-! ## The caller-facing layer (command handlers and button callbacks,
index.ts lines 150-463)

`Env` fixes the behaviour of the external world during a run: the memoized
probe's result, whether the pinchtab transport succeeds, the pinchtab
response body, and the page info a playwright instance extracts.  `Req` is a
parsed request reaching the browse plugin; the `links`, `screenshot` and
`page` branches issue no backend `navigate`/`click`/`back` calls and only
read the cache, so they are not modelled. -/

structure Env where
  probeResult : BackendKind
  serverOk : Bool
  resp : PinchtabResponse
  pwInfo : PageInfo
  cleanupFails : Bool

inductive Req where
  | browseUrl (args : String)
  | browseClick (ref : String)
  | browseBack
  | cbRefresh
deriving DecidableEq

/-- The `navigate` of the backend held by a session entry
(pinchtab-backend.ts lines 89-96 resp. the playwright `navigate`): the call
always reaches the backend (hence the unconditional trace event); on
transport failure the pinchtab history is not pushed. -/
def backendNavigate (env : Env) (e : SessionEntry) (url : String) :
    Except String (SessionEntry × PageInfo) × List Ev :=
  match e.kind with
  | .pinchtab =>
    (if env.serverOk then
       .ok ({ e with hist := pinchtabNavHist e.hist url }, getPageInfo url env.resp)
     else .error "Pinchtab /navigate failed: 500",
     [Ev.navigateCall e.backendId url])
  | .playwright =>
    (if env.serverOk then .ok (e, env.pwInfo) else .error "navigation failed",
     [Ev.navigateCall e.backendId url])

/-- The `click` of the backend held by a session entry (pinchtab-backend.ts
lines 98-105 resp. 225-243).  The pinchtab click forwards the ref to the
service unchecked and reports the page at the top of its URL history; the
playwright click validates the ref before touching the page. -/
def backendClick (env : Env) (e : SessionEntry) (ref : String) :
    Except String (SessionEntry × PageInfo) × List Ev :=
  match e.kind with
  | .pinchtab =>
    (if env.serverOk then
       .ok (e, getPageInfo (pinchtabCurrentUrl e.hist) env.resp)
     else .error "Pinchtab /action failed: 500",
     [Ev.clickCall e.backendId ref])
  | .playwright =>
    match jsParseInt ref with
    | none => (.error "ref 必須是非負整數", [])
    | some i =>
      if i < 0 then (.error "ref 必須是非負整數", [])
      else (if env.serverOk then .ok (e, env.pwInfo) else .error "click failed",
            [Ev.clickCall e.backendId ref])

/-- The `back` of the backend held by a session entry. -/
def backendBack (env : Env) (e : SessionEntry) :
    Except String (SessionEntry × PageInfo) × List Ev :=
  match e.kind with
  | .pinchtab =>
    (match pinchtabBack e.hist env.serverOk env.resp with
     | .ok (h, info) => .ok ({ e with hist := h }, info)
     | .error m => .error m,
     [Ev.backCall e.backendId])
  | .playwright =>
    (if env.serverOk then .ok (e, env.pwInfo) else .error "back failed",
     [Ev.backCall e.backendId])

/-- `url.startsWith('http://') || url.startsWith('https://') ? url :
`https://${url}`` (index.ts lines 189-192). -/
def prefixUrl (args : String) : String :=
  if jsStartsWith args "http://" || jsStartsWith args "https://" then args
  else "https://" ++ args

/-- Finish a handler after `getSession`: perform the backend call, and on
success store the updated entry and cache the returned page info; a backend
failure is reported to the user and leaves the state as it was after
`getSession`. -/
def finishWith (st1 : PoolState) (chatId : Nat) (evs1 : List Ev)
    (r : Except String (SessionEntry × PageInfo) × List Ev) : PoolState × List Ev :=
  match r with
  | (.ok (e', info), evs2) =>
    ({ st1 with sessions := st1.sessions.map (fun p => if p.1 = chatId then (chatId, e') else p)
              , pageCache := setA st1.pageCache chatId info },
     evs1 ++ evs2)
  | (.error _, evs2) => (st1, evs1 ++ evs2)

/-- One request through the caller-facing layer: `browseCommand`'s navigate
branch (lines 188-218), `handleClick` (221-254), `handleBack` (294-315) and
the `refresh` callback branch (381-400). -/
def stepReq (env : Env) (st : PoolState) (chatId : Nat) (r : Req) (now : Nat) :
    PoolState × List Ev :=
  match r with
  | .browseUrl args =>
    let url := prefixUrl args
    if isUrlSafe url then
      let s := getSession env.cleanupFails st chatId now env.probeResult
      match List.lookup chatId s.1.sessions with
      | none => (s.1, s.2.2)
      | some e => finishWith s.1 chatId s.2.2 (backendNavigate env e url)
    else (st, [])
  | .browseClick ref =>
    if ref = "" then (st, [])
    else
      match jsParseInt ref with
      | none => (st, [])
      | some i =>
        if i < 0 then (st, [])
        else
          let s := getSession env.cleanupFails st chatId now env.probeResult
          match List.lookup chatId s.1.sessions with
          | none => (s.1, s.2.2)
          | some e => finishWith s.1 chatId s.2.2 (backendClick env e ref)
  | .browseBack =>
    let s := getSession env.cleanupFails st chatId now env.probeResult
    match List.lookup chatId s.1.sessions with
    | none => (s.1, s.2.2)
    | some e => finishWith s.1 chatId s.2.2 (backendBack env e)
  | .cbRefresh =>
    match List.lookup chatId st.pageCache with
    | none => (st, [])
    | some cached =>
      let s := getSession env.cleanupFails st chatId now env.probeResult
      match List.lookup chatId s.1.sessions with
      | none => (s.1, s.2.2)
      | some e => finishWith s.1 chatId s.2.2 (backendNavigate env e cached.url)

/-- Run a sequence of `(chatId, request, now)` turns, accumulating events. -/
def runReqs (env : Env) (calls : List (Nat × Req × Nat)) : PoolState × List Ev :=
  calls.foldl (fun acc c =>
    let s := stepReq env acc.1 c.1 c.2.1 c.2.2
    (s.1, acc.2 ++ s.2)) (initState, [])

/-! ## Helper lemmas about the pool -/

theorem navigateCall_not_mem_evict (b : Bool) (st : PoolState) (k bid : Nat) (u : String) :
    Ev.navigateCall bid u ∉ (evictSession b st k).2 := by
  unfold evictSession
  rcases List.lookup k st.sessions with _ | e <;> simp

theorem navigateCall_not_mem_detect (st : PoolState) (pr : BackendKind) (bid : Nat) (u : String) :
    Ev.navigateCall bid u ∉ (detectBackend st pr).2.2 := by
  unfold detectBackend
  rcases st.detection with _ | k <;> simp

theorem navigateCall_not_mem_maybeEvict (b : Bool) (st : PoolState) (bid : Nat) (u : String) :
    Ev.navigateCall bid u ∉ (maybeEvictOldest b st).2 := by
  unfold maybeEvictOldest
  split
  · split
    · apply navigateCall_not_mem_evict
    · simp
  · simp

theorem navigateCall_not_mem_getSession (b : Bool) (st : PoolState) (c now : Nat)
    (pr : BackendKind) (bid : Nat) (u : String) :
    Ev.navigateCall bid u ∉ (getSession b st c now pr).2.2 := by
  unfold getSession
  rcases List.lookup c st.sessions with _ | e
  · simp only [List.mem_append, List.mem_cons, List.not_mem_nil, or_false]
    rintro ((h | h) | h | h)
    · exact navigateCall_not_mem_maybeEvict _ _ _ _ h
    · exact navigateCall_not_mem_detect _ _ _ _ h
    · exact Ev.noConfusion h
    · exact Ev.noConfusion h
  · simp

theorem backendNavigate_trace (env : Env) (e : SessionEntry) (url : String) :
    (backendNavigate env e url).2 = [Ev.navigateCall e.backendId url] := by
  rcases e with ⟨bid, kind, hist, lu, t⟩
  cases kind <;> simp [backendNavigate]

theorem finishWith_trace (st1 : PoolState) (chatId : Nat) (evs1 : List Ev)
    (r : Except String (SessionEntry × PageInfo) × List Ev) :
    (finishWith st1 chatId evs1 r).2 = evs1 ++ r.2 := by
  rcases r with ⟨res, evs2⟩
  rcases res with m | ⟨e', info⟩ <;> simp [finishWith]

end Browse

namespace Browse

/-! ## Claim C1 -/

/-- C1.  For every URL with an `http` or `https` scheme whose hostname is one
of `127.0.0.1`, `localhost`, `::1`, `169.254.169.254`, `10.1.2.3`,
`172.16.0.1`, `192.168.1.1`, the Navigation Guard returns `false` (indeed for
every scheme, since non-`http(s)` schemes are rejected as well); for such a
URL whose hostname is `example.com` or `8.8.8.8` it returns `true`; and it
returns `false` for every URL whose scheme is not `http` or `https`. -/
theorem C1_navigation_guard (protocol hostname : String) :
    (hostname ∈ ["127.0.0.1", "localhost", "::1", "169.254.169.254",
                 "10.1.2.3", "172.16.0.1", "192.168.1.1"] →
       isUrlSafeOf protocol hostname = false)
  ∧ ((protocol = "http:" ∨ protocol = "https:") →
       (hostname = "example.com" ∨ hostname = "8.8.8.8") →
       isUrlSafeOf protocol hostname = true)
  ∧ (¬ (protocol = "http:" ∨ protocol = "https:") →
       isUrlSafeOf protocol hostname = false) := by
  refine ⟨?_, ?_, ?_⟩
  · intro hmem
    by_cases hp : protocol = "http:" ∨ protocol = "https:"
    · rcases hp with rfl | rfl <;>
        (simp only [List.mem_cons, List.mem_singleton, List.not_mem_nil, or_false] at hmem
         rcases hmem with rfl | rfl | rfl | rfl | rfl | rfl | rfl <;> decide)
    · simp [isUrlSafeOf, hp]
  · rintro (rfl | rfl) (rfl | rfl) <;> decide
  · intro hp
    simp [isUrlSafeOf, hp]

/-- Witness for C1 at concrete inputs. -/
theorem C1_witness :
    isUrlSafeOf "http:" "127.0.0.1" = false ∧ isUrlSafeOf "https:" "example.com" = true := by
  exact ⟨(C1_navigation_guard "http:" "127.0.0.1").1 (by decide),
         (C1_navigation_guard "https:" "example.com").2.1 (Or.inr rfl) (Or.inl rfl)⟩

end Browse

namespace Browse

/-! ## Claim C2 -/

/-- Claim C2 as stated: over every environment and every sequence of modelled
requests, every URL handed to a backend `navigate` call satisfies the
Navigation Guard. -/
def ClaimC2 : Prop :=
  ∀ (env : Env) (calls : List (Nat × Req × Nat)) (bid : Nat) (u : String),
    Ev.navigateCall bid u ∈ (runReqs env calls).2 → isUrlSafe u = true

/-- C2 counterexample.  A `/browse click 0` issued before any navigation
caches a `PageInfo` whose `url` is the empty string (the pinchtab backend's
history is empty), and the subsequent `refresh` button press hands that
cached, never-guarded URL straight to `navigate`: the trace contains a
`navigate` call whose URL fails `isUrlSafe`. -/
theorem C2_counterexample : ¬ ClaimC2 := by
  intro h
  exact absurd
    (h ⟨.pinchtab, true, ⟨"", none⟩, ⟨"", "", "", [], []⟩, false⟩
       [(1, .browseClick "0", 0), (1, .cbRefresh, 1)] 0 "" (by decide))
    (by decide)

/-- C2 (amended).  In the URL branch of `browseCommand` every URL handed to a
backend `navigate` call was accepted by `isUrlSafe` during that request; the
`refresh` callback, by contrast, re-navigates to the cached `PageInfo`'s
`url` without re-running the guard, and that cached URL need never have been
guard-accepted (counterexample above). -/
theorem C2_browse_command_guarded (env : Env) (st : PoolState) (chatId : Nat)
    (args : String) (now bid : Nat) (u : String)
    (hmem : Ev.navigateCall bid u ∈ (stepReq env st chatId (Req.browseUrl args) now).2) :
    isUrlSafe u = true := by
  simp only [stepReq] at hmem
  by_cases hg : isUrlSafe (prefixUrl args) = true
  · rw [if_pos hg] at hmem
    rcases hl : List.lookup chatId
        (getSession env.cleanupFails st chatId now env.probeResult).1.sessions with _ | e
    · rw [hl] at hmem
      exact absurd hmem (navigateCall_not_mem_getSession _ _ _ _ _ _ _)
    · rw [hl] at hmem
      rw [finishWith_trace, backendNavigate_trace] at hmem
      rcases List.mem_append.1 hmem with h | h
      · exact absurd h (navigateCall_not_mem_getSession _ _ _ _ _ _ _)
      · rcases List.mem_singleton.1 h with h'
        injection h' with h1 h2
        rw [h2]
        exact hg
  · rw [if_neg hg] at hmem
    simp at hmem

/-- Witness for the amended C2 at a concrete request. -/
theorem C2_witness : isUrlSafe "http://example.com" = true :=
  C2_browse_command_guarded ⟨.pinchtab, true, ⟨"", none⟩, ⟨"", "", "", [], []⟩, false⟩
    initState 1 "http://example.com" 0 0 "http://example.com" (by decide)

/-! ## Claim C9 -/

/-- C9.  When the Navigation Guard rejects the (scheme-defaulted) URL of a
`/browse <url>` request, the handler returns before `getSession`: the pool
state is unchanged (no session entry created, page cache untouched) and no
backend event — in particular no construction and no `navigate` — occurs. -/
theorem C9_guard_frame (env : Env) (st : PoolState) (chatId : Nat) (args : String) (now : Nat)
    (h : isUrlSafe (prefixUrl args) = false) :
    stepReq env st chatId (Req.browseUrl args) now = (st, []) := by
  simp [stepReq, h]

/-- Witness for C9: `/browse http://localhost` is rejected and leaves the
initial state untouched. -/
theorem C9_witness :
    isUrlSafe (prefixUrl "http://localhost") = false ∧
    stepReq ⟨.pinchtab, true, ⟨"", none⟩, ⟨"", "", "", [], []⟩, false⟩ initState 1
      (Req.browseUrl "http://localhost") 0 = (initState, []) :=
  ⟨by decide,
   C9_guard_frame ⟨.pinchtab, true, ⟨"", none⟩, ⟨"", "", "", [], []⟩, false⟩
     initState 1 "http://localhost" 0 (by decide)⟩

end Browse

namespace Browse

/-! ## Claim C5 -/

theorem lookup_eraseA {α : Type} (l : List (Nat × α)) (k : Nat) :
    List.lookup k (eraseA l k) = none := by
  induction l with
  | nil => rfl
  | cons p t ih =>
    by_cases h : p.1 = k
    · simpa [eraseA, h] using ih
    · simpa [eraseA, h, List.lookup, beq_eq_false_iff_ne.2 (Ne.symm h)] using ih

/-- C5.  `evictSession` behaves identically whether or not the backend's
`cleanup()` throws (the failure is swallowed); after evicting an actor with a
live entry, both its session entry and its page-cache entry are gone; an
eviction of an actor with no live entry is a no-op; hence a second eviction
of an already-evicted actor changes nothing. -/
theorem C5_evict_both_swallow_idempotent (b1 b2 : Bool) (st : PoolState) (c : Nat) :
    evictSession b1 st c = evictSession b2 st c
  ∧ List.lookup c (evictSession b1 st c).1.sessions = none
  ∧ ((List.lookup c st.sessions).isSome →
       List.lookup c (evictSession b1 st c).1.pageCache = none)
  ∧ (List.lookup c st.sessions = none → evictSession b1 st c = (st, []))
  ∧ evictSession b1 (evictSession b2 st c).1 c = ((evictSession b2 st c).1, []) := by
  rcases hl : List.lookup c st.sessions with _ | e
  · exact ⟨by simp [evictSession, hl], by simp [evictSession, hl],
      by simp [hl], fun _ => by simp [evictSession, hl], by simp [evictSession, hl]⟩
  · refine ⟨by simp [evictSession, hl], by simp [evictSession, hl, lookup_eraseA],
      fun _ => by simp [evictSession, hl, lookup_eraseA], by simp [hl], ?_⟩
    have h2 : List.lookup c (evictSession b2 st c).1.sessions = none := by
      simp [evictSession, hl, lookup_eraseA]
    revert h2
    generalize (evictSession b2 st c).1 = st2
    intro h2
    simp [evictSession, h2]

/-- Witness for C5 at a concrete one-entry pool. -/
theorem C5_witness :
    List.lookup 7 (evictSession true
      ⟨[(7, ⟨0, .pinchtab, [], 0, 0⟩)], [(7, ⟨"", "", "", [], []⟩)], none, 1⟩ 7).1.pageCache
       = none :=
  (C5_evict_both_swallow_idempotent true false
      ⟨[(7, ⟨0, .pinchtab, [], 0, 0⟩)], [(7, ⟨"", "", "", [], []⟩)], none, 1⟩ 7).2.2.1
    (by decide)

end Browse

namespace Browse

/-! ## Claim C8 -/

def isProbe : Ev → Bool
  | .probe _ => true
  | _ => false

def countProbes (evs : List Ev) : Nat := (evs.filter isProbe).length

theorem countProbes_append (l1 l2 : List Ev) :
    countProbes (l1 ++ l2) = countProbes l1 + countProbes l2 := by
  simp [countProbes, List.filter_append]

theorem evict_detection (b : Bool) (st : PoolState) (k : Nat) :
    (evictSession b st k).1.detection = st.detection := by
  unfold evictSession
  rcases List.lookup k st.sessions with _ | e <;> simp

theorem evict_no_probe (b : Bool) (st : PoolState) (k : Nat) :
    countProbes (evictSession b st k).2 = 0 := by
  unfold evictSession
  rcases List.lookup k st.sessions with _ | e <;> simp [countProbes, isProbe]

theorem maybeEvict_detection (b : Bool) (st : PoolState) :
    (maybeEvictOldest b st).1.detection = st.detection := by
  unfold maybeEvictOldest
  split
  · split
    · apply evict_detection
    · rfl
  · rfl

theorem maybeEvict_no_probe (b : Bool) (st : PoolState) :
    countProbes (maybeEvictOldest b st).2 = 0 := by
  unfold maybeEvictOldest
  split
  · split
    · apply evict_no_probe
    · rfl
  · rfl

theorem evict_no_probe_mem (b : Bool) (st : PoolState) (k : Nat) :
    ∀ a ∈ (evictSession b st k).2, isProbe a = false := by
  unfold evictSession
  rcases List.lookup k st.sessions with _ | e <;> simp [isProbe]

theorem maybeEvict_no_probe_mem (b : Bool) (st : PoolState) :
    ∀ a ∈ (maybeEvictOldest b st).2, isProbe a = false := by
  unfold maybeEvictOldest
  split
  · split
    · apply evict_no_probe_mem
    · simp
  · simp

theorem countProbes_single_probe (k : BackendKind) : countProbes [Ev.probe k] = 1 := rfl

theorem countProbes_construct_arm (k : BackendKind) (bid c : Nat) :
    countProbes [Ev.construct k bid, Ev.armTimer c] = 0 := rfl

theorem countProbes_clear_arm (c : Nat) :
    countProbes [Ev.clearTimer c, Ev.armTimer c] = 0 := rfl

/-- A `getSession` step either performs the one probe of the process (when
the decision was unset and a fresh backend is constructed) or emits no probe
at all and leaves the decision unchanged. -/
theorem getSession_count_detection (b : Bool) (st : PoolState) (c now : Nat)
    (pr : BackendKind) :
    (st.detection = none ∧ countProbes (getSession b st c now pr).2.2 = 1 ∧
       (getSession b st c now pr).1.detection = some pr)
  ∨ (countProbes (getSession b st c now pr).2.2 = 0 ∧
       (getSession b st c now pr).1.detection = st.detection) := by
  unfold getSession
  rcases hl : List.lookup c st.sessions with _ | e
  · rcases hd : (maybeEvictOldest b st).1.detection with _ | k
    · left
      have hst : st.detection = none := by rw [← maybeEvict_detection b st, hd]
      refine ⟨hst, ?_, ?_⟩
      · simp only [detectBackend, hd, countProbes, List.filter_append, List.length_append]
        have hz : List.filter isProbe (maybeEvictOldest b st).2 = [] := by
          rw [List.filter_eq_nil_iff]
          intro a ha
          simp [maybeEvict_no_probe_mem b st a ha]
        rw [hz]
        simp [isProbe]
      · simp [detectBackend, hd]
    · right
      have hst : st.detection = some k := by rw [← maybeEvict_detection b st, hd]
      refine ⟨?_, ?_⟩
      · simp [detectBackend, hd, countProbes_append, maybeEvict_no_probe,
              countProbes_construct_arm]
      · simp [detectBackend, hd, hst]
  · right
    exact ⟨countProbes_clear_arm c, rfl⟩

/-- The probe-count invariant carried through a run: never more than one
probe so far, and none at all while the memoized decision is still unset. -/
def probeInv (acc : PoolState × List Ev) : Prop :=
  countProbes acc.2 ≤ 1 ∧ (acc.1.detection = none → countProbes acc.2 = 0)

theorem getSession_probeInv (b : Bool) (st : PoolState) (c now : Nat) (pr : BackendKind)
    (evs : List Ev) (h : probeInv (st, evs)) :
    probeInv ((getSession b st c now pr).1, evs ++ (getSession b st c now pr).2.2) := by
  obtain ⟨h1, h2⟩ := h
  rcases getSession_count_detection b st c now pr with ⟨hst, hc, hd⟩ | ⟨hc, hd⟩
  · refine ⟨?_, ?_⟩
    · rw [countProbes_append, hc, h2 hst]
    · intro hnone
      rw [hd] at hnone
      exact absurd hnone (by simp)
  · refine ⟨?_, ?_⟩
    · rw [countProbes_append, hc]
      simpa using h1
    · intro hnone
      rw [hd] at hnone
      rw [countProbes_append, hc, h2 hnone]

theorem runPool_probeInv (calls : List (Nat × Nat)) (pr : BackendKind)
    (acc : PoolState × List Ev) (h : probeInv acc) :
    probeInv (calls.foldl (fun acc c =>
      let s := getSession false acc.1 c.1 c.2 pr
      (s.1, acc.2 ++ s.2.2)) acc) := by
  induction calls generalizing acc with
  | nil => exact h
  | cons c rest ih =>
    exact ih _ (getSession_probeInv false acc.1 c.1 c.2 pr acc.2 h)

/-- C8.  The backend-selection probe is memoized: once resolved, `detectBackend`
returns the stored decision with no probe event regardless of what a fresh
probe would say; over any sequence of session creations from a fresh process
at most one probe event ever occurs; and the plugin-wide cleanup resets the
memoized decision, after which the next detection probes afresh. -/
theorem C8_probe_memoized :
    (∀ (st : PoolState) (p k : BackendKind), st.detection = some k →
        detectBackend st p = (st, k, []))
  ∧ (∀ (calls : List (Nat × Nat)) (p : BackendKind),
        countProbes (runPool calls p).2 ≤ 1)
  ∧ (∀ st : PoolState, (pluginCleanup st).1.detection = none)
  ∧ (∀ (st : PoolState) (p : BackendKind),
        detectBackend (pluginCleanup st).1 p
          = ({ (pluginCleanup st).1 with detection := some p }, p, [Ev.probe p])) := by
  refine ⟨fun st p k h => by simp [detectBackend, h], fun calls p => ?_, fun st => rfl,
    fun st p => by simp [pluginCleanup, detectBackend]⟩
  exact (runPool_probeInv calls p (initState, []) ⟨by decide, fun _ => rfl⟩).1

/-- Witness for C8: a memoized `pinchtab` decision is reused without probing
even when a fresh probe would select `playwright`. -/
theorem C8_witness :
    detectBackend ⟨[], [], some .pinchtab, 0⟩ .playwright
      = (⟨[], [], some .pinchtab, 0⟩, .pinchtab, []) :=
  C8_probe_memoized.1 ⟨[], [], some .pinchtab, 0⟩ .playwright .pinchtab rfl

end Browse

namespace Browse

/-! ## Claim C3 -/

theorem oldestEntry_isSome {l : List (Nat × SessionEntry)} (h : l ≠ []) :
    (oldestEntry l).isSome := by
  rcases l with _ | ⟨p, t⟩
  · exact absurd rfl h
  · unfold oldestEntry
    rcases oldestEntry t with _ | r
    · rfl
    · by_cases hlt : r.2.lastUsed < p.2.lastUsed <;> simp [hlt]

theorem oldestEntry_mem {l : List (Nat × SessionEntry)} {p : Nat × SessionEntry}
    (h : oldestEntry l = some p) : p ∈ l := by
  induction l generalizing p with
  | nil => simp [oldestEntry] at h
  | cons q t ih =>
    simp only [oldestEntry] at h
    split at h
    · injection h with h
      exact h ▸ List.mem_cons_self q t
    · rename_i r heq
      split at h
      · injection h with h
        exact List.mem_cons_of_mem q (ih (h ▸ heq))
      · injection h with h
        exact h ▸ List.mem_cons_self q t

theorem oldestEntry_min {l : List (Nat × SessionEntry)} {p : Nat × SessionEntry}
    (h : oldestEntry l = some p) : ∀ q ∈ l, p.2.lastUsed ≤ q.2.lastUsed := by
  induction l generalizing p with
  | nil => simp [oldestEntry] at h
  | cons q t ih =>
    intro x hx
    simp only [oldestEntry] at h
    split at h
    · rename_i heq
      injection h with h
      subst h
      rcases List.mem_cons.1 hx with rfl | hx
      · exact Nat.le_refl _
      · rcases t with _ | ⟨y, t'⟩
        · exact absurd hx (List.not_mem_nil x)
        · have hs := oldestEntry_isSome (l := y :: t') (by simp)
          rw [heq] at hs
          exact absurd hs (by simp)
    · rename_i r heq
      split at h
      · rename_i hlt
        injection h with h
        subst h
        rcases List.mem_cons.1 hx with rfl | hx
        · exact Nat.le_of_lt hlt
        · exact ih heq x hx
      · rename_i hlt
        injection h with h
        subst h
        rcases List.mem_cons.1 hx with rfl | hx
        · exact Nat.le_refl _
        · exact Nat.le_trans (Nat.le_of_not_lt hlt) (ih heq x hx)

theorem lookup_isSome_of_mem {α : Type} {l : List (Nat × α)} {k : Nat} {e : α}
    (h : (k, e) ∈ l) : (List.lookup k l).isSome := by
  induction l with
  | nil => exact absurd h (List.not_mem_nil _)
  | cons p t ih =>
    rcases List.mem_cons.1 h with rfl | h
    · simp [List.lookup]
    · by_cases hk : k == p.1
      · simp [List.lookup, hk]
      · simpa [List.lookup, hk] using ih h

theorem lookup_of_mem_nodup {l : List (Nat × SessionEntry)} {k : Nat} {e : SessionEntry}
    (hnd : (l.map Prod.fst).Nodup) (h : (k, e) ∈ l) : List.lookup k l = some e := by
  induction l with
  | nil => exact absurd h (List.not_mem_nil _)
  | cons p t ih =>
    rcases List.mem_cons.1 h with rfl | h
    · simp [List.lookup]
    · have hk : k ≠ p.1 := by
        intro hkp
        have : p.1 ∈ t.map Prod.fst :=
          hkp ▸ List.mem_map_of_mem Prod.fst h
        exact (List.nodup_cons.1 hnd).1 this
      simpa [List.lookup, beq_eq_false_iff_ne.2 hk] using
        ih (List.nodup_cons.1 hnd).2 h

theorem eraseA_length_lt {α : Type} {l : List (Nat × α)} {k : Nat} {e : α}
    (h : (k, e) ∈ l) : (eraseA l k).length < l.length := by
  induction l with
  | nil => exact absurd h (List.not_mem_nil _)
  | cons p t ih =>
    rcases List.mem_cons.1 h with rfl | h
    · have he : eraseA ((k, e) :: t) k = eraseA t k := by simp [eraseA]
      rw [he]
      exact Nat.lt_succ_of_le (List.length_filter_le _ t)
    · by_cases hp : p.1 = k
      · have he : eraseA (p :: t) k = eraseA t k := by simp [eraseA, hp]
        rw [he]
        exact Nat.lt_succ_of_le (List.length_filter_le _ t)
      · have he : eraseA (p :: t) k = p :: eraseA t k := by simp [eraseA, hp]
        rw [he]
        simpa using ih h

theorem lookup_append_left_none {α : Type} {l1 : List (Nat × α)} (l2 : List (Nat × α))
    {k : Nat} (h : List.lookup k l1 = none) :
    List.lookup k (l1 ++ l2) = List.lookup k l2 := by
  induction l1 with
  | nil => rfl
  | cons p t ih =>
    by_cases hk : k == p.1
    · simp [List.lookup, hk] at h
    · simp only [List.lookup, hk, List.cons_append] at h ⊢
      exact ih h

end Browse

namespace Browse

theorem detect_sessions (st : PoolState) (pr : BackendKind) :
    (detectBackend st pr).1.sessions = st.sessions := by
  unfold detectBackend
  rcases st.detection with _ | k <;> simp

theorem maybeEvict_length_lt (b : Bool) (st : PoolState)
    (h : st.sessions.length ≤ MAX_SESSIONS) :
    (maybeEvictOldest b st).1.sessions.length < MAX_SESSIONS := by
  unfold maybeEvictOldest
  split
  · rename_i hfull
    have hne : st.sessions ≠ [] := by
      intro hnil
      rw [hnil] at hfull
      exact absurd hfull (by decide)
    have hs := oldestEntry_isSome hne
    split
    · rename_i k e0 heq
      have hmem := oldestEntry_mem heq
      unfold evictSession
      rcases hlk : List.lookup k st.sessions with _ | e1
      · exact absurd (lookup_isSome_of_mem hmem) (by rw [hlk]; simp)
      · exact Nat.lt_of_lt_of_le (eraseA_length_lt hmem) h
    · rename_i heq
      rw [heq] at hs
      exact absurd hs (by simp)
  · rename_i hnotfull
    exact Nat.lt_of_le_of_lt (Nat.le_refl _) (Nat.lt_of_not_le hnotfull)

theorem getSession_length_le (b : Bool) (st : PoolState) (c now : Nat) (pr : BackendKind)
    (h : st.sessions.length ≤ MAX_SESSIONS) :
    (getSession b st c now pr).1.sessions.length ≤ MAX_SESSIONS := by
  unfold getSession
  rcases hl : List.lookup c st.sessions with _ | e
  · simp only [detect_sessions, List.length_append, List.length_cons, List.length_nil]
    have := maybeEvict_length_lt b st h
    omega
  · simpa using h

/-- C3.  Over every sequence of `getSession` calls from a fresh pool, the
number of live session entries never exceeds `MAX_SESSIONS`; and whenever a
capacity eviction occurs (the actor has no live entry while the pool is
full), the evicted key holds an entry whose `lastUsed` is minimal among the
live entries at that moment, the step's trace cancels its idle timer and
invokes its backend's `cleanup()` before anything else — in particular before
the removal is observable — and the evicted key is absent afterwards. -/
theorem C3_session_capacity_lru :
    (∀ (calls : List (Nat × Nat)) (pr : BackendKind),
        (runPool calls pr).1.sessions.length ≤ MAX_SESSIONS)
  ∧ (∀ (b : Bool) (st : PoolState) (c now : Nat) (pr : BackendKind),
       (st.sessions.map Prod.fst).Nodup →
       List.lookup c st.sessions = none →
       MAX_SESSIONS ≤ st.sessions.length →
       ∃ k e, oldestEntry st.sessions = some (k, e)
         ∧ (∀ q ∈ st.sessions, e.lastUsed ≤ q.2.lastUsed)
         ∧ (∃ tl, (getSession b st c now pr).2.2
               = Ev.clearTimer k :: Ev.cleanupCall e.backendId :: tl)
         ∧ List.lookup k (getSession b st c now pr).1.sessions = none) := by
  constructor
  · intro calls pr
    have main : ∀ (cs : List (Nat × Nat)) (acc : PoolState × List Ev),
        acc.1.sessions.length ≤ MAX_SESSIONS →
        (cs.foldl (fun acc c =>
          let s := getSession false acc.1 c.1 c.2 pr
          (s.1, acc.2 ++ s.2.2)) acc).1.sessions.length ≤ MAX_SESSIONS := by
      intro cs
      induction cs with
      | nil => exact fun _ h => h
      | cons c rest ih =>
        intro acc h
        exact ih _ (getSession_length_le false acc.1 c.1 c.2 pr h)
    exact main calls (initState, []) (by decide)
  · intro b st c now pr hnd habs hfull
    have hne : st.sessions ≠ [] := by
      intro hnil
      rw [hnil] at hfull
      exact absurd hfull (by decide)
    have hs := oldestEntry_isSome hne
    rcases ho : oldestEntry st.sessions with _ | ⟨k, e⟩
    · rw [ho] at hs
      exact absurd hs (by simp)
    · have hmem := oldestEntry_mem ho
      have hlk : List.lookup k st.sessions = some e := lookup_of_mem_nodup hnd hmem
      have hkc : ¬ (k == c) = true := by
        intro hkc
        have hk : k = c := eq_of_beq hkc
        rw [hk, habs] at hlk
        exact Option.noConfusion hlk
      have hme : maybeEvictOldest b st = evictSession b st k := by
        unfold maybeEvictOldest
        rw [if_pos hfull, ho]
      have hev : evictSession b st k
          = ({ st with sessions := eraseA st.sessions k, pageCache := eraseA st.pageCache k },
             [Ev.clearTimer k, Ev.cleanupCall e.backendId]) := by
        unfold evictSession
        rw [hlk]
      refine ⟨k, e, rfl, oldestEntry_min ho, ?_, ?_⟩
      · simp only [getSession, habs, hme, hev]
        exact ⟨_, rfl⟩
      · simp only [getSession, habs, hme, hev, detect_sessions]
        rw [lookup_append_left_none _ (lookup_eraseA st.sessions k)]
        simp [List.lookup, hkc]

/-- Witness for C3's eviction clause at a concrete full pool. -/
theorem C3_witness :
    ∃ k e, oldestEntry ([(1, ⟨0, .pinchtab, [], 3, 3⟩), (2, ⟨1, .pinchtab, [], 1, 1⟩),
          (3, ⟨2, .pinchtab, [], 4, 4⟩), (4, ⟨3, .pinchtab, [], 1, 1⟩),
          (5, ⟨4, .pinchtab, [], 5, 5⟩)] : List (Nat × SessionEntry)) = some (k, e)
      ∧ (∀ q ∈ ([(1, ⟨0, .pinchtab, [], 3, 3⟩), (2, ⟨1, .pinchtab, [], 1, 1⟩),
          (3, ⟨2, .pinchtab, [], 4, 4⟩), (4, ⟨3, .pinchtab, [], 1, 1⟩),
          (5, ⟨4, .pinchtab, [], 5, 5⟩)] : List (Nat × SessionEntry)),
            e.lastUsed ≤ q.2.lastUsed)
      ∧ (∃ tl, (getSession false ⟨[(1, ⟨0, .pinchtab, [], 3, 3⟩), (2, ⟨1, .pinchtab, [], 1, 1⟩),
          (3, ⟨2, .pinchtab, [], 4, 4⟩), (4, ⟨3, .pinchtab, [], 1, 1⟩),
          (5, ⟨4, .pinchtab, [], 5, 5⟩)], [], some .pinchtab, 5⟩ 6 100 .pinchtab).2.2
            = Ev.clearTimer k :: Ev.cleanupCall e.backendId :: tl)
      ∧ List.lookup k (getSession false ⟨[(1, ⟨0, .pinchtab, [], 3, 3⟩), (2, ⟨1, .pinchtab, [], 1, 1⟩),
          (3, ⟨2, .pinchtab, [], 4, 4⟩), (4, ⟨3, .pinchtab, [], 1, 1⟩),
          (5, ⟨4, .pinchtab, [], 5, 5⟩)], [], some .pinchtab, 5⟩ 6 100 .pinchtab).1.sessions
          = none :=
  C3_session_capacity_lru.2 false
    ⟨[(1, ⟨0, .pinchtab, [], 3, 3⟩), (2, ⟨1, .pinchtab, [], 1, 1⟩),
      (3, ⟨2, .pinchtab, [], 4, 4⟩), (4, ⟨3, .pinchtab, [], 1, 1⟩),
      (5, ⟨4, .pinchtab, [], 5, 5⟩)], [], some .pinchtab, 5⟩ 6 100 .pinchtab
    (by decide) (by decide) (by decide)

end Browse

namespace Browse

/-! ## Claim C4 -/

/-- Claim C4 as stated, for the backend that has a notion of an
invalid-reference error (the playwright backend; the pinchtab backend
forwards the ref to the remote service without any validation): an in-range
ref never errors, an out-of-range ref always errors. -/
def ClaimC4 : Prop :=
  ∀ (anchors : List Anchor) (i : Nat),
    (i < (extractLinks anchors).length →
       isErr (playwrightClick anchors (toString i)) = false)
  ∧ ((extractLinks anchors).length ≤ i →
       isErr (playwrightClick anchors (toString i)) = true)

/-- C4 counterexample: on a page with exactly one link, `click "1"` is out of
range of the returned `links` list but raises no error at all — the
playwright click silently does nothing (`if (target)` guards the activation)
and re-extracts the page. -/
theorem C4_counterexample : ¬ ClaimC4 := by
  intro h
  exact absurd ((h [⟨"a", "http://x"⟩] 1).2 (by decide)) (by decide)

theorem mkString_cons_bne (c : Char) (xs : List Char) :
    (String.mk (c :: xs) != "") = true := by
  have hne : String.mk (c :: xs) ≠ "" := by
    intro h
    exact List.noConfusion (show c :: xs = ([] : List Char) from congrArg String.data h)
  exact bne_iff_ne.2 hne

theorem jsSlice_ne_empty (s : String) (n : Nat) (hn : n ≠ 0) :
    (jsSlice s n != "") = (s != "") := by
  rcases s with ⟨cs⟩
  rcases cs with _ | ⟨c, t⟩
  · simp [jsSlice]
  · rcases n with _ | m
    · exact absurd rfl hn
    · simp only [jsSlice, List.take]
      rw [mkString_cons_bne, mkString_cons_bne]

theorem extractLinks_le_clickFiltered (anchors : List Anchor) :
    (extractLinks anchors).length ≤ (clickFiltered anchors).length := by
  unfold extractLinks clickFiltered
  calc (((anchors.map (fun a => PageLink.mk (jsSlice (jsTrim a.textContent) 100) a.href)).filter
            (fun l => l.label != "" && jsStartsWith l.url "http")).take 30).length
      ≤ ((anchors.map (fun a => PageLink.mk (jsSlice (jsTrim a.textContent) 100) a.href)).filter
            (fun l => l.label != "" && jsStartsWith l.url "http")).length := by
        rw [List.length_take]
        exact min_le_right _ _
    _ = (anchors.filter (fun a => jsTrim a.textContent != "" && jsStartsWith a.href "http")).length := by
        rw [List.filter_map]
        rw [List.length_map]
        congr 1
        apply List.filter_congr
        intro a _
        simp only [Function.comp]
        rw [jsSlice_ne_empty _ 100 (by decide)]

/-- C4 (amended).  For the playwright backend: a ref parsing to an in-range
index never raises and activates an anchor; any nonnegative numeric ref —
in range or not — never raises (out-of-range clicks silently no-op); a ref
that does not parse to a nonnegative integer always raises the
invalid-reference error.  (The pinchtab click performs no reference
validation at all.) -/
theorem C4_click_reference (anchors : List Anchor) (ref : String) (i : Int) :
    (jsParseInt ref = some i → 0 ≤ i → i.toNat < (extractLinks anchors).length →
       ∃ a, playwrightClick anchors ref = .ok (some a))
  ∧ (jsParseInt ref = some i → 0 ≤ i →
       isErr (playwrightClick anchors ref) = false)
  ∧ (jsParseInt ref = none →
       playwrightClick anchors ref = .error "ref 必須是非負整數")
  ∧ (jsParseInt ref = some i → i < 0 →
       playwrightClick anchors ref = .error "ref 必須是非負整數") := by
  refine ⟨?_, ?_, ?_, ?_⟩
  · intro hp h0 hlt
    have hlt2 : i.toNat < (clickFiltered anchors).length :=
      Nat.lt_of_lt_of_le hlt (extractLinks_le_clickFiltered anchors)
    refine ⟨(clickFiltered anchors)[i.toNat], ?_⟩
    simp [playwrightClick, hp, not_lt.2 h0, List.getElem?_eq_getElem hlt2]
  · intro hp h0
    simp [playwrightClick, hp, not_lt.2 h0, isErr]
  · intro hp
    simp [playwrightClick, hp]
  · intro hp hneg
    simp [playwrightClick, hp, hneg]

/-- Witness for the amended C4 at a concrete page. -/
theorem C4_witness :
    ∃ a, playwrightClick [⟨"a", "http://x"⟩] "0" = .ok (some a) :=
  (C4_click_reference [⟨"a", "http://x"⟩] "0" 0).1 (by decide) (by decide) (by decide)

/-! ## Claim C7 -/

/-- C7.  `back()` on an empty navigation history never errors and reports
the current page state unchanged: the pinchtab backend (given a working
transport) leaves its empty URL history as is and rebuilds the page at the
current (absent, hence `''`) URL; the playwright backend swallows the
`goBack` failure and re-extracts the current page. -/
theorem C7_back_empty_history (resp : PinchtabResponse) (p : PageModel) :
    pinchtabBack [] true resp = .ok ([], getPageInfo "" resp)
  ∧ playwrightBack p none = .ok (extractPageInfoP p) :=
  ⟨rfl, rfl⟩

end Browse

namespace Browse

/-! ## Claim C6 -/

/-- One occurrence of the link pattern recognised by
`parseLinksFromSnapshot`. -/
def linkPat : List Char := "[a](http://b)".data

/-- `n` concatenated copies of the link pattern. -/
def patsN : Nat → List Char
  | 0 => []
  | n + 1 => linkPat ++ patsN n

theorem scanLinksAux_nil (f : Nat) : scanLinksAux f [] = [] := by
  cases f <;> rfl

theorem scanLinksAux_pat (f : Nat) (rest : List Char) :
    scanLinksAux (f + 1) (linkPat ++ rest)
      = PageLink.mk "a" "http://b" :: scanLinksAux f rest := rfl

theorem scanLinksAux_patsN (n : Nat) :
    ∀ f, n ≤ f → scanLinksAux f (patsN n) = List.replicate n (PageLink.mk "a" "http://b") := by
  induction n with
  | zero => intro f _; exact scanLinksAux_nil f
  | succ n ih =>
    intro f hf
    rcases f with _ | f2
    · exact absurd hf (by omega)
    · rw [show patsN (n + 1) = linkPat ++ patsN n from rfl, scanLinksAux_pat]
      rw [ih f2 (by omega)]
      rfl

theorem patsN_length (n : Nat) : (patsN n).length = 13 * n := by
  induction n with
  | zero => rfl
  | succ n ih =>
    simp only [patsN, List.length_append, ih]
    simp [linkPat]
    ring

theorem parseLinks_patsN (n : Nat) :
    parseLinksFromSnapshot (String.mk (patsN n))
      = List.replicate n (PageLink.mk "a" "http://b") := by
  unfold parseLinksFromSnapshot
  exact scanLinksAux_patsN n _ (by rw [patsN_length]; omega)

/-- Claim C6 as stated: some fixed bound caps the text length and the
link/input list lengths of every `PageInfo` either backend can produce. -/
def ClaimC6 : Prop :=
  ∃ B : Nat,
    (∀ (url : String) (resp : PinchtabResponse),
        (getPageInfo url resp).text.length ≤ B
      ∧ (getPageInfo url resp).links.length ≤ B
      ∧ (getPageInfo url resp).inputs.length ≤ B)
  ∧ (∀ p : PageModel,
        (extractPageInfoP p).text.length ≤ B
      ∧ (extractPageInfoP p).links.length ≤ B
      ∧ (extractPageInfoP p).inputs.length ≤ B)

/-- C6 counterexample: `parseLinksFromSnapshot` imposes no bound — a snapshot
holding `B + 1` copies of `[a](http://b)` makes the pinchtab backend produce
a `PageInfo` with `B + 1` links, for any candidate bound `B`. -/
theorem C6_counterexample : ¬ ClaimC6 := by
  rintro ⟨B, hPinch, _⟩
  have h := (hPinch "" ⟨"", some [String.mk (patsN (B + 1))]⟩).2.1
  have h2 : (getPageInfo "" ⟨"", some [String.mk (patsN (B + 1))]⟩).links
      = List.replicate (B + 1) (PageLink.mk "a" "http://b") := by
    show parseLinksFromSnapshot (String.intercalate "\n" [String.mk (patsN (B + 1))]) = _
    rw [show String.intercalate "\n" [String.mk (patsN (B + 1))] = String.mk (patsN (B + 1)) from rfl]
    exact parseLinks_patsN (B + 1)
  rw [h2, List.length_replicate] at h
  omega

theorem jsSlice_length_le (s : String) (n : Nat) : (jsSlice s n).length ≤ n := by
  simp only [jsSlice, String.length]
  exact List.length_take_le _ _

/-- C6 (amended).  The `text` field is truncated to `MAX_TEXT_LENGTH` by both
backends; the playwright backend truncates `links` to 30 and `inputs` to 20
and the retained links are a sublist (document order preserved) of the full
filtered link list; but the pinchtab backend's `links` and `inputs` lists
carry every match found in the snapshot, with no maximum count
(counterexample above). -/
theorem C6_truncation (url : String) (resp : PinchtabResponse) (p : PageModel) :
    (getPageInfo url resp).text.length ≤ MAX_TEXT_LENGTH
  ∧ (extractPageInfoP p).text.length ≤ MAX_TEXT_LENGTH
  ∧ (extractPageInfoP p).links.length ≤ 30
  ∧ (extractPageInfoP p).inputs.length ≤ 20
  ∧ (extractPageInfoP p).links.Sublist
      ((p.anchors.map (fun a => PageLink.mk (jsSlice (jsTrim a.textContent) 100) a.href)).filter
        (fun l => l.label != "" && jsStartsWith l.url "http")) := by
  refine ⟨jsSlice_length_le _ _, jsSlice_length_le _ _, ?_, ?_, ?_⟩
  · exact List.length_take_le _ _
  · exact List.length_take_le _ _
  · exact List.take_sublist _ _

/-! ## Claim C10 -/

/-- The operations of one pinchtab backend instance that touch its
`urlHistory` closure state (navigate pushes, back pops, click and type leave
it alone), restricted to runs in which every service call succeeds. -/
inductive POp where
  | nav (url : String)
  | clickOp (ref : String)
  | typeOp (ref : String) (text : String)
  | backOp
deriving DecidableEq

def pinchtabHistAfter (ops : List POp) : List String :=
  ops.foldl (fun h op =>
    match op with
    | .nav u => pinchtabNavHist h u
    | .backOp => pinchtabBackHist h
    | _ => h) []

/-- The argument of the most recent `navigate` call in the run, if any. -/
def lastNavArg (ops : List POp) : Option String :=
  ops.foldl (fun acc op => match op with | .nav u => some u | _ => acc) none

/-- Claim C10 as stated: after any run of pinchtab operations, the `url` of
the `PageInfo` returned by a `click` (or `type`) equals the argument of the
most recent `navigate`, or `""` when none occurred. -/
def ClaimC10 : Prop :=
  ∀ (ops : List POp) (resp : PinchtabResponse),
    (getPageInfo (pinchtabCurrentUrl (pinchtabHistAfter ops)) resp).url
      = (lastNavArg ops).getD ""

/-- C10 counterexample: `back()` pops the history, so after
`navigate a; navigate b; back()` a click reports `a` while the most recent
navigate argument is `b`. -/
theorem C10_counterexample : ¬ ClaimC10 := by
  intro h
  exact absurd (h [.nav "http://a", .nav "http://b", .backOp] ⟨"", none⟩) (by decide)

theorem getLastD_concat {α : Type} (l : List α) (a : α) :
    ∀ d, (l ++ [a]).getLastD d = a := by
  induction l with
  | nil => intro d; rfl
  | cons x t ih =>
    intro d
    rw [List.cons_append, List.getLastD_cons]
    exact ih x

/-- C10 (amended).  As long as no `back()` intervenes, the `url` of the
`PageInfo` returned by the pinchtab `click` and `type` equals the argument of
the most recent `navigate` on that instance, or `""` when `navigate` was
never called — regardless of where the click or type actually moved the
browser (the history is not consulted by the service). -/
theorem C10_click_url (ops : List POp) (resp : PinchtabResponse)
    (hnb : POp.backOp ∉ ops) :
    (getPageInfo (pinchtabCurrentUrl (pinchtabHistAfter ops)) resp).url
      = (lastNavArg ops).getD "" := by
  show pinchtabCurrentUrl (pinchtabHistAfter ops) = (lastNavArg ops).getD ""
  induction ops using List.reverseRecOn with
  | nil => rfl
  | append_singleton l op ih =>
    have hl : POp.backOp ∉ l := fun hm => hnb (List.mem_append.2 (Or.inl hm))
    have hop : op ≠ POp.backOp := fun he =>
      hnb (List.mem_append.2 (Or.inr (he ▸ List.mem_singleton_self _)))
    cases op with
    | nav u =>
      simp only [pinchtabHistAfter, lastNavArg, List.foldl_append, List.foldl_cons,
        List.foldl_nil] at ih ⊢
      simp only [pinchtabNavHist, pinchtabCurrentUrl]
      rw [getLastD_concat]
      rfl
    | clickOp r =>
      simpa only [pinchtabHistAfter, lastNavArg, List.foldl_append, List.foldl_cons,
        List.foldl_nil] using ih hl
    | typeOp r t =>
      simpa only [pinchtabHistAfter, lastNavArg, List.foldl_append, List.foldl_cons,
        List.foldl_nil] using ih hl
    | backOp => exact absurd rfl hop

/-- Witness for the amended C10 at a concrete back-free run. -/
theorem C10_witness :
    (getPageInfo (pinchtabCurrentUrl
        (pinchtabHistAfter [POp.nav "http://a", POp.clickOp "0"])) ⟨"", none⟩).url
      = (lastNavArg [POp.nav "http://a", POp.clickOp "0"]).getD "" :=
  C10_click_url [POp.nav "http://a", POp.clickOp "0"] ⟨"", none⟩ (by decide)

end Browse
